import Mathlib

/-!
Verification of the galton acquisition / normalization / staging pipeline.

Each section embeds one module of the repository as executable Lean
definitions (dataframes become lists of records, the filesystem becomes an
association list from paths to contents, the HTTP layer becomes a function
from attempt numbers to outcomes) and proves the spec-level properties about
those definitions.
-/

namespace Galton

/-! ## Feature engineering: forecast records (`feature_engineering/forecasts.py`)

A dataframe row, with the columns consulted by `filter_redundant_forecasts`
and `filter_unused_forecast_data`.  Timestamps are UTC instants in abstract
integer units; a missing (NaN) temperature is `none`. -/

structure ForecastRow where
  datetime : Int
  forecast_temperature : Option ℚ
  city : String
  model_timestamp : Int
  model_name : String
  model_id : String
  date : String
  deriving DecidableEq, Repr

/-- `df[df["datetime"] > df["model_timestamp"]]`: the causality filter,
first pass of `filter_redundant_forecasts`. -/
def causality_filter (df : List ForecastRow) : List ForecastRow :=
  df.filter (fun r => r.model_timestamp < r.datetime)

/-- The column subset on which `filter_redundant_forecasts` deduplicates. -/
structure DedupKey where
  datetime : Int
  forecast_temperature : Option ℚ
  city : String
  model_timestamp : Int
  model_name : String
  model_id : String
  date : String
  deriving DecidableEq, Repr

/-- The `drop_duplicates(subset=[...])` key of `filter_redundant_forecasts`:
`["datetime", "forecast_temperature", "city", "model_timestamp",
"model_name", "model_id", "date"]`. -/
def dedupKey (r : ForecastRow) : DedupKey :=
  ⟨r.datetime, r.forecast_temperature, r.city, r.model_timestamp,
   r.model_name, r.model_id, r.date⟩

/-- `DataFrame.drop_duplicates` with `keep="first"` semantics over an
arbitrary key: keep each row whose key has not been seen earlier. -/
def dropDuplicates {α β : Type} [DecidableEq β] (key : α → β) :
    List β → List α → List α
  | _, [] => []
  | seen, x :: xs =>
    if key x ∈ seen then dropDuplicates key seen xs
    else x :: dropDuplicates key (key x :: seen) xs

/-- `filter_redundant_forecasts`: causality filter, then duplicate collapse
on the 7-column subset (`reset_index(drop=True)` does not change row
content or order). -/
def filter_redundant_forecasts (df : List ForecastRow) : List ForecastRow :=
  dropDuplicates dedupKey [] (causality_filter df)

/-- `filter_unused_forecast_data`: keep rows with a present temperature,
city different from Houston and model name different from best_match. -/
def filter_unused_forecast_data (df : List ForecastRow) : List ForecastRow :=
  df.filter (fun r =>
    r.forecast_temperature.isSome && r.city ≠ "Houston" &&
      r.model_name ≠ "best_match")

/-! ## File search (`data_collection/file_search.py`)

`datetime.date` values become explicit calendar dates; `timedelta` and date
comparison act through the day number of a date (days since 1970-01-01,
computed with the standard civil-calendar conversion, using Lean's
floor-rounding integer division which matches Python's `//`). -/

structure CalDate where
  year : Int
  month : Nat
  day : Nat
  deriving DecidableEq, Repr

def isLeapYear (y : Int) : Bool :=
  y % 4 = 0 && (y % 100 ≠ 0 || y % 400 = 0)

def daysInMonth (y : Int) (m : Nat) : Nat :=
  if m = 2 then (if isLeapYear y then 29 else 28)
  else if m = 4 || m = 6 || m = 9 || m = 11 then 30
  else 31

/-- Day number of a calendar date: days since 1970-01-01 (civil-from-date
conversion; the era shift keeps every intermediate quantity nonnegative for
years ≥ 1). -/
def daysFromCivil (dt : CalDate) : Int :=
  let y : Int := if dt.month ≤ 2 then dt.year - 1 else dt.year
  let era : Int := y / 400
  let yoe : Int := y - era * 400
  let mp : Int := if 2 < dt.month then (dt.month : Int) - 3 else (dt.month : Int) + 9
  let doy : Int := (153 * mp + 2) / 5 + (dt.day : Int) - 1
  let doe : Int := yoe * 365 + yoe / 4 - yoe / 100 + doy
  era * 146097 + doe - 719468

/-- Calendar date of a day number (inverse civil conversion). -/
def civilFromDays (z0 : Int) : CalDate :=
  let z : Int := z0 + 719468
  let era : Int := z / 146097
  let doe : Int := z - era * 146097
  let yoe : Int := (doe - doe / 1460 + doe / 36524 - doe / 146096) / 365
  let y : Int := yoe + era * 400
  let doy : Int := doe - (365 * yoe + yoe / 4 - yoe / 100)
  let mp : Int := (5 * doy + 2) / 153
  let d : Int := doy - (153 * mp + 2) / 5 + 1
  let m : Int := if mp < 10 then mp + 3 else mp - 9
  ⟨if m ≤ 2 then y + 1 else y, m.toNat, d.toNat⟩

/-- `date(y, m, d)` validity as `datetime` enforces it (years 1–9999). -/
def validDate (y : Int) (m d : Nat) : Bool :=
  1 ≤ y && y ≤ 9999 && 1 ≤ m && m ≤ 12 && 1 ≤ d && d ≤ daysInMonth y m

def mkDate (y : Int) (m d : Nat) : Option CalDate :=
  if validDate y m d then some ⟨y, m, d⟩ else none

def digitsToNat (cs : List Char) : Nat :=
  cs.foldl (fun n c => 10 * n + (c.toNat - 48)) 0

def allDigits (cs : List Char) : Bool := cs.all Char.isDigit

/-- `strptime(s, "%Y-%m-%d")`: dash-separated year, month, day fields. -/
def parseYmdDash (s : String) : Option CalDate :=
  match s.data.splitOn '-' with
  | [ys, ms, ds] =>
    if allDigits ys && allDigits ms && allDigits ds &&
        decide (1 ≤ ys.length) && decide (ys.length ≤ 4) &&
        decide (1 ≤ ms.length) && decide (ms.length ≤ 2) &&
        decide (1 ≤ ds.length) && decide (ds.length ≤ 2) then
      mkDate (digitsToNat ys) (digitsToNat ms) (digitsToNat ds)
    else none
  | _ => none

/-- `strptime(s, "%Y%m%d")`: eight digits, split 4–2–2. -/
def parseYmdCompact (s : String) : Option CalDate :=
  let cs := s.data
  if allDigits cs && decide (cs.length = 8) then
    mkDate (digitsToNat (cs.take 4)) (digitsToNat ((cs.drop 4).take 2))
      (digitsToNat (cs.drop 6))
  else none

def monthAbbrevs : List String :=
  ["Jan", "Feb", "Mar", "Apr", "May", "Jun",
   "Jul", "Aug", "Sep", "Oct", "Nov", "Dec"]

def lowerStr (s : String) : String := ⟨s.data.map Char.toLower⟩

/-- Month number of a three-letter abbreviation, case-insensitively, as
`strptime`'s `%b` matches it. -/
def monthOfAbbrev (cs : List Char) : Option Nat :=
  match (monthAbbrevs.findIdx? (fun a => lowerStr a = lowerStr ⟨cs⟩)) with
  | some i => some (i + 1)
  | none => none

/-- `strptime(s, "%y%b%d")`: two-digit year (00–68 → 2000s, 69–99 →
1900s), month abbreviation, day. -/
def parseYyMonDd (s : String) : Option CalDate :=
  let cs := s.data
  let ys := cs.take 2
  let ms := (cs.drop 2).take 3
  let ds := cs.drop 5
  if allDigits ys && decide (ys.length = 2) && decide (ms.length = 3) &&
      allDigits ds && decide (1 ≤ ds.length) && decide (ds.length ≤ 2) then
    match monthOfAbbrev ms with
    | some m =>
      let yy := digitsToNat ys
      mkDate (if yy ≤ 68 then 2000 + yy else 1900 + yy) m (digitsToNat ds)
    | none => none
  else none

/-- `_DATE_FORMAT_MAP` from `file_search.py`. -/
def DATE_FORMAT_MAP : List (String × String) :=
  [("YYYY-MM-DD", "%Y-%m-%d"), ("YYYYMMDD", "%Y%m%d"), ("YYMMMDD", "%y%b%d")]

def lookupFmt (date_format : String) : Option String :=
  (DATE_FORMAT_MAP.find? (fun p => p.1 = date_format)).map Prod.snd

/-- Python `str.capitalize`: first character upper-cased, rest lower-cased
(applied to `YYMMMDD` inputs so `25SEP23` and `25Sep23` both parse). -/
def pyCapitalize (s : String) : String :=
  match s.data with
  | [] => ""
  | c :: cs => ⟨c.toUpper :: cs.map Char.toLower⟩

def strptimeDate (s : String) (fmt : String) : Option CalDate :=
  if fmt = "%Y-%m-%d" then parseYmdDash s
  else if fmt = "%Y%m%d" then parseYmdCompact s
  else if fmt = "%y%b%d" then parseYyMonDd s
  else none

/-- `_parse_date`: dispatch on the configured format, raising `ValueError`
for an unsupported format or an unparsable date string. -/
def parse_date (date_str : String) (date_format : String) : Except String CalDate :=
  match lookupFmt date_format with
  | none => .error ("Unsupported date_format: " ++ date_format)
  | some fmt =>
    let candidate := if date_format = "YYMMMDD" then pyCapitalize date_str else date_str
    match strptimeDate candidate fmt with
    | some dt => .ok dt
    | none =>
      .error ("Could not parse date_str=" ++ date_str ++
        " with date_format=" ++ date_format)

def padDigits (n : Nat) (width : Nat) : String :=
  let s := toString n
  ⟨List.replicate (width - s.length) '0' ++ s.data⟩

def upperStr (s : String) : String := ⟨s.data.map Char.toUpper⟩

/-- `strftime` for the three supported formats (year of a rendered date is
nonnegative for every date the module constructs). -/
def renderDate (dt : CalDate) (date_format : String) : String :=
  if date_format = "YYYY-MM-DD" then
    padDigits dt.year.toNat 4 ++ "-" ++ padDigits dt.month 2 ++ "-" ++ padDigits dt.day 2
  else if date_format = "YYYYMMDD" then
    padDigits dt.year.toNat 4 ++ padDigits dt.month 2 ++ padDigits dt.day 2
  else
    padDigits (dt.year.toNat % 100) 2 ++
      upperStr (monthAbbrevs.getD (dt.month - 1) "") ++ padDigits dt.day 2

/-- `_format_date`: format dispatch, `ValueError` on an unsupported
format, with the `YYMMMDD` output upper-cased as in the source. -/
def format_date (dt : CalDate) (date_format : String) : Except String String :=
  match lookupFmt date_format with
  | none => .error ("Unsupported date_format: " ++ date_format)
  | some _ => .ok (renderDate dt date_format)

/-- `enumerate_date_range`: parse both endpoints (today's date is an
explicit argument standing for `date.today()`), return `[]` when the start
is after the end, and otherwise one formatted date per day of the
inclusive range, in the start date's format. -/
def enumerate_date_range (start_date : String) (start_date_format : String)
    (end_date : Option String) (end_date_format : Option String)
    (today : CalDate) : Except String (List String) :=
  match parse_date start_date start_date_format with
  | .error err => .error err
  | .ok start =>
    match (match end_date with
           | none => Except.ok today
           | some e => parse_date e (end_date_format.getD start_date_format)) with
    | .error err => .error err
    | .ok endD =>
      if daysFromCivil start > daysFromCivil endD then .ok []
      else
        let num_days := (daysFromCivil endD - daysFromCivil start).toNat + 1
        (List.range num_days).mapM
          (fun i => format_date (civilFromDays (daysFromCivil start + i)) start_date_format)

/-- The effective suffix list of `build_file_stem_candidates`:
`list(suffixes) if suffixes else [""]` (a `None` or empty iterable becomes
the single empty suffix). -/
def suffixesList (suffixes : Option (List String)) : List String :=
  match suffixes with
  | some l => if l.isEmpty then [""] else l
  | none => [""]

/-- `build_file_stem_candidates`: `ValueError` when `prefixes` is empty,
`[]` when `dates` is empty, and otherwise the full
`prefix + date + suffix` product in comprehension order. -/
def build_file_stem_candidates (prefixes : List String) (dates : List String)
    (suffixes : Option (List String)) : Except String (List String) :=
  let suffixes_list := suffixesList suffixes
  if prefixes.isEmpty then
    .error "prefixes must contain at least one prefix"
  else if dates.isEmpty then
    .ok []
  else
    .ok (prefixes.flatMap (fun p =>
      dates.flatMap (fun d => suffixes_list.map (fun suf => p ++ d ++ suf))))

/-! ## AccuWeather HTTP helper (`data_collection/accuweather.py`, `_get`)

One HTTP attempt either returns status 200 with a JSON body (`success`),
raises a transient transport fault (`requests.Timeout` /
`requests.ConnectionError`, modelled as `transient`), or yields a non-200
status whose handling raises `AccuWeatherError` inside the `try` block —
an exception the `except` clause does not catch (`fatal`). -/

inductive HttpOutcome where
  | success (body : Nat)
  | transient (exc : Nat)
  | fatal (status : Nat)
  deriving DecidableEq, Repr

inductive GetResult where
  | ok (body : Nat)
  | providerError (status : Nat)
  | networkError (lastExc : Option Nat)
  deriving DecidableEq, Repr

/-- Trace of one `_get` call: its result, the durations passed to
`time.sleep` in order, and the attempt numbers on which a request was
issued. -/
structure GetTrace where
  result : GetResult
  sleeps : List ℚ
  attempts : List Nat
  deriving DecidableEq, Repr

/-- The body of `_get`'s `for attempt in range(1, retries + 1)` loop, over
the remaining attempt numbers: status 200 returns, a non-200 status raises
immediately, a transient fault either breaks out of the loop when
`attempt == retries` (the final `raise` then wraps the last fault) or
sleeps `0.75 * attempt` and continues. -/
def getLoop (respond : Nat → HttpOutcome) (retries : Nat) :
    List Nat → Option Nat → GetTrace
  | [], lastExc => ⟨.networkError lastExc, [], []⟩
  | a :: rest, _lastExc =>
    match respond a with
    | .success body => ⟨.ok body, [], [a]⟩
    | .fatal status => ⟨.providerError status, [], [a]⟩
    | .transient exc =>
      if a = retries then ⟨.networkError (some exc), [], [a]⟩
      else
        let r := getLoop respond retries rest (some exc)
        ⟨r.result, (3 / 4 : ℚ) * a :: r.sleeps, a :: r.attempts⟩

/-! ## Orchestration across the city registry
(`stage_accuweather_12h_all_cities`, `accuweather.py` lines 326-426)

Each city's fetch-and-process step either yields a dataframe (a list of
rows; the per-city metadata columns and the per-city parquet write do not
affect the aggregation) or raises an exception whose string is recorded in
`failures`.  The loop body's outcome per city is therefore an input
`Except String (List ρ)`. -/

inductive StageError where
  | allFailed (failures : List (String × String))
  | noCities
  deriving Repr

/-- The `for city, meta in CITY_REFERENCE.items()` loop: successful frames
and `(city, reason)` failures accumulate in iteration order. -/
def stageLoop {ρ : Type} :
    List (String × Except String (List ρ)) → List (List ρ) × List (String × String)
  | [] => ([], [])
  | (city, fetch) :: rest =>
    match fetch with
    | .ok df =>
      let r := stageLoop rest
      (df :: r.1, r.2)
    | .error exc =>
      let r := stageLoop rest
      (r.1, (city, exc) :: r.2)

/-- `stage_accuweather_12h_all_cities` after the loop: raise when no frame
was collected (`All city fetches failed` when failures exist, otherwise
`No cities found.`), else return the concatenated rows; failures are
surfaced alongside. -/
def stage_accuweather_12h_all_cities {ρ : Type}
    (cities : List (String × Except String (List ρ))) :
    Except StageError (List ρ × List (String × String)) :=
  let r := stageLoop cities
  if r.1.isEmpty then
    .error (if r.2.isEmpty then .noCities else .allFailed r.2)
  else
    .ok (r.1.flatten, r.2)

/-- Whether a city's fetch succeeded. -/
def isOkFetch {α : Type} (f : Except String α) : Bool :=
  match f with
  | .ok _ => true
  | .error _ => false

/-- The frames the loop collects: one per successful city, in order. -/
def framesOf {ρ : Type} (cities : List (String × Except String (List ρ))) :
    List (List ρ) :=
  cities.filterMap (fun c => c.2.toOption)

/-- The failures the loop records: one `(city, reason)` per failed city,
in order. -/
def failuresOf {ρ : Type} (cities : List (String × Except String (List ρ))) :
    List (String × String) :=
  cities.filterMap (fun c => match c.2 with
    | .error e => some (c.1, e)
    | .ok _ => none)

/-! ## Timestamp normalization (`utilities.py`, `convert_datetime_to_utc`)

A zone-aware timestamp carries its zone's UTC offset and its wall-clock
reading (both in abstract minute units); the instant it denotes is
wall-clock minus offset.  `Series.dt.tz_convert(tz)` keeps the instant and
re-expresses the wall clock in the target zone, which is exactly how
pandas converts between fixed-offset aware timestamps. -/

structure ZonedDatetime where
  offsetMinutes : Int
  wallClock : Int
  deriving DecidableEq, Repr

def instantOf (t : ZonedDatetime) : Int := t.wallClock - t.offsetMinutes

def tz_convert (offset : Int) (t : ZonedDatetime) : ZonedDatetime :=
  ⟨offset, instantOf t + offset⟩

/-- `pd.to_datetime(s, utc=True).dt.tz_convert("UTC")` on an aware value. -/
def to_utc (t : ZonedDatetime) : ZonedDatetime := tz_convert 0 t

/-- A row of the dataframe passed to `convert_datetime_to_utc`: the
`datetime` column (aware, `none` once dropped), the `datetime_utc` column
(`none` until assigned) and the remaining columns abstracted. -/
structure ConvRow where
  datetime : Option ZonedDatetime
  datetime_utc : Option ZonedDatetime
  other : Int
  deriving DecidableEq, Repr

/-- `df["datetime_utc"] = pd.to_datetime(df[col], utc=True).dt.tz_convert("UTC")`. -/
def addUtcColumn (df : List ConvRow) : List ConvRow :=
  df.map (fun r => { r with datetime_utc := r.datetime.map to_utc })

/-- `df = df.drop(columns=[col])`. -/
def dropDatetimeColumn (df : List ConvRow) : List ConvRow :=
  df.map (fun r => { r with datetime := none })

/-- `convert_datetime_to_utc` as a value-level function: copy, assign the
UTC column, optionally drop the source column. -/
def convert_datetime_to_utc (df : List ConvRow) (drop_col : Bool) : List ConvRow :=
  let c := addUtcColumn df
  match drop_col with
  | true => dropDatetimeColumn c
  | false => c

/-! ## C9 object heap

Python-level aliasing made explicit: a heap cell per dataframe object
identity.  `df[mask]`, `drop_duplicates`, `reset_index`, `df.copy()` and
`df.drop(columns=...)` allocate fresh objects; a column assignment
`df[col] = ...` writes through the local name to the object it points at. -/

def heapAlloc {α : Type} (h : List α) (v : α) : List α × Nat :=
  (h ++ [v], h.length)

def heapWrite {α : Type} (h : List α) (a : Nat) (v : α) : List α :=
  h.set a v

def heapRead {α : Type} (h : List (List α)) (a : Nat) : List α :=
  h.getD a []

/-- `filter_redundant_forecasts` statement by statement on the heap:
`df[df["datetime"] > df["model_timestamp"]]` allocates `filtered_df`,
`.drop_duplicates(...)` allocates `deduped_df`, `.reset_index(drop=True)`
allocates the returned frame; nothing writes to the argument object. -/
def filter_redundant_forecasts_st (h : List (List ForecastRow)) (df : Nat) :
    List (List ForecastRow) × Nat :=
  let r1 := heapAlloc h (causality_filter (heapRead h df))
  let r2 := heapAlloc r1.1 (dropDuplicates dedupKey [] (heapRead r1.1 r1.2))
  heapAlloc r2.1 (heapRead r2.1 r2.2)

/-- `filter_unused_forecast_data` on the heap: `df[mask]` allocates, then
`.reset_index(drop=True)` allocates the returned frame. -/
def filter_unused_forecast_data_st (h : List (List ForecastRow)) (df : Nat) :
    List (List ForecastRow) × Nat :=
  let r1 := heapAlloc h (filter_unused_forecast_data (heapRead h df))
  heapAlloc r1.1 (heapRead r1.1 r1.2)

/-- `convert_datetime_to_utc` on the heap: `df = df.copy()` allocates and
rebinds the local name, the column assignment writes to the copy, and the
optional `df.drop(columns=[col])` allocates the frame that is returned. -/
def convert_datetime_to_utc_st (h : List (List ConvRow)) (df : Nat)
    (drop_col : Bool) : List (List ConvRow) × Nat :=
  let c := heapAlloc h (heapRead h df)
  let h1 := heapWrite c.1 c.2 (addUtcColumn (heapRead c.1 c.2))
  match drop_col with
  | true => heapAlloc h1 (dropDatetimeColumn (heapRead h1 c.2))
  | false => (h1, c.2)

/-! ## Staging writer (`utilities.py`, `save`) and dimension bootstrap
(`scripts/init_local_data.py`, `init`)

The filesystem is an association list from paths to file contents with
unique paths; a write (`DataFrame.to_parquet`, `pq.write_table`) replaces
the entry for its path or appends a new one. -/

def fsWrite {α : Type} : List (String × α) → String → α → List (String × α)
  | [], name, c => [(name, c)]
  | p :: fs, name, c =>
    if p.1 = name then (name, c) :: fs else p :: fsWrite fs name c

def fsLookup {α : Type} (fs : List (String × α)) (name : String) : Option α :=
  (fs.find? (fun p => p.1 = name)).map Prod.snd

def fsCount {α : Type} (fs : List (String × α)) (name : String) : Nat :=
  (fs.filter (fun p => p.1 = name)).length

def fsExists {α : Type} (fs : List (String × α)) (name : String) : Bool :=
  fs.any (fun p => p.1 = name)

def replaceAllChar (c : Char) (r : List Char) : List Char → List Char
  | [] => []
  | x :: xs => (if x = c then r else [x]) ++ replaceAllChar c r xs

def replaceFirstN (c r : Char) : Nat → List Char → List Char
  | _, [] => []
  | 0, xs => xs
  | n + 1, x :: xs =>
    if x = c then r :: replaceFirstN c r n xs
    else x :: replaceFirstN c r (n + 1) xs

/-- The file-name encoding of `save`: the `isoformat` string with `:`
replaced by `-`, `+` replaced by `_plus_`, every `-` then replaced by `_`,
and the first two `_` (the calendar-date hyphens) restored to `-`. -/
def encodeTimestamp (iso : String) : String :=
  let s1 := replaceAllChar ':' ['-'] iso.data
  let s2 := replaceAllChar '+' ("_plus_".data) s1
  let s3 := replaceAllChar '-' ['_'] s2
  ⟨replaceFirstN '_' '-' 2 s3⟩

/-- The path `save` writes to: `path/file_name[--encoded].parquet`. -/
def savePath (path file_name : String) (current_timestamp : Option String) :
    String :=
  let base := path ++ "/" ++ file_name
  let base2 := match current_timestamp with
    | some iso => base ++ "--" ++ encodeTimestamp iso
    | none => base
  base2 ++ ".parquet"

/-- `save`: builds the deterministic path and calls `df.to_parquet` on it
unconditionally — there is no existence check. -/
def save {α : Type} (fs : List (String × α)) (path file_name : String)
    (current_timestamp : Option String) (df : α) : List (String × α) :=
  fsWrite fs (savePath path file_name current_timestamp) df

/-- The keys of the `SCHEMAS` dict literal in `init_local_data.py`. -/
def SCHEMAS_KEYS : List String :=
  ["location", "observation", "forecast", "quote", "order", "execution",
   "cash_ledger"]

/-- `SCHEMAS[k]`: raises `KeyError(k)` when `k` is not a key. -/
def schemasLookup (k : String) : Except String Unit :=
  if SCHEMAS_KEYS.contains k then .ok () else .error k

/-- `_write_empty_if_missing`: a no-op when the file exists. -/
def write_empty_if_missing {α : Type} (fs : List (String × α)) (file : String)
    (empty : α) : List (String × α) :=
  if fsExists fs file then fs else fsWrite fs file empty

/-- The dimension-seeding write of `init`
(`pq.write_table(..., BASE / "dim_location.parquet")`): a full overwrite. -/
def seed_dim_location {α : Type} (fs : List (String × α)) (seeded : α) :
    List (String × α) :=
  fsWrite fs "local_data/dim_location.parquet" seeded

/-- `init`: evaluates `SCHEMAS["dim_location"]` as the second argument of
the first `_write_empty_if_missing` call; the dict's keys are `location`,
`observation`, ... so this raises `KeyError('dim_location')` before any
file is touched. -/
def init {α : Type} (fs : List (String × α)) (empty seeded : α) :
    Except String (List (String × α)) := do
  let _ ← schemasLookup "dim_location"
  let fs1 := write_empty_if_missing fs "local_data/dim_location.parquet" empty
  let _ ← schemasLookup "dim_market_contract"
  let fs2 := write_empty_if_missing fs1
    "local_data/dim_market_contract.parquet" empty
  pure (seed_dim_location fs2 seeded)

/-! ## Open-Meteo multi-model client (`openmeteo.py`,
`parse_multi_model_response`)

One response object per model: its numeric model code (`response.Model()`),
the current-conditions instant (`Current().Time()`, epoch seconds; the
`tz_convert("US/Central")` re-expression preserves the instant) and the
hourly block `(Time(), TimeEnd(), Interval(), Variables(0).ValuesAsNumpy())`. -/

structure OMHourly where
  time : Int
  timeEnd : Int
  interval : Nat
  values : List ℚ
  deriving DecidableEq, Repr, Inhabited

structure OMResponse where
  modelId : Nat
  currentTime : Int
  hourly : OMHourly
  deriving DecidableEq, Repr, Inhabited

structure OMRow where
  forecast_date : Int
  temperature_2m : ℚ
  city : String
  model_timestamp : Int
  current_timestamp : Int
  model_name : String
  model_id : Nat
  deriving DecidableEq, Repr

/-- Number of buckets of `pd.date_range(start, end, freq=interval,
inclusive="left")`: the instants `start + k * interval < end`. -/
def dateRangeCount (start endT : Int) (interval : Nat) : Nat :=
  ((endT - start + interval - 1) / interval).toNat

/-- `pd.date_range(start, end, freq=pd.Timedelta(seconds=interval),
inclusive="left")`; a zero-length frequency raises. -/
def dateRangeLeft (start endT : Int) (interval : Nat) :
    Except String (List Int) :=
  if interval = 0 then .error "ValueError: freq must be nonzero"
  else
    .ok ((List.range (dateRangeCount start endT interval)).map
      (fun k : Nat => start + (k : Int) * interval))

/-- The hourly dataframe built for one response, tagged by
`add_multi_model_metadata` with the city, the model run instant, the fetch
instant, the positional model name and the response's model code;
`pd.DataFrame(data=hourly_data)` raises when the bucket column and the
value column have different lengths. -/
def modelRows (resp : OMResponse) (modelName : String) (city : String)
    (ct : Int) : Except String (List OMRow) :=
  match dateRangeLeft resp.hourly.time resp.hourly.timeEnd resp.hourly.interval with
  | .error e => .error e
  | .ok buckets =>
    if buckets.length = resp.hourly.values.length then
      .ok ((buckets.zip resp.hourly.values).map (fun b =>
        ⟨b.1, b.2, city, resp.currentTime, ct, modelName, resp.modelId⟩))
    else .error "ValueError: All arrays must be of the same length"

/-- The rows `modelRows` yields on a well-formed response. -/
def modelRowsPure (resp : OMResponse) (modelName : String) (city : String)
    (ct : Int) : List OMRow :=
  (((List.range (dateRangeCount resp.hourly.time resp.hourly.timeEnd
        resp.hourly.interval)).map
      (fun k : Nat => resp.hourly.time + (k : Int) * resp.hourly.interval)).zip
    resp.hourly.values).map
    (fun b => ⟨b.1, b.2, city, resp.currentTime, ct, modelName, resp.modelId⟩)

/-- A response whose hourly block parses: nonzero interval and as many
values as buckets. -/
def wfResponse (r : OMResponse) : Bool :=
  r.hourly.interval ≠ 0 &&
    decide (dateRangeCount r.hourly.time r.hourly.timeEnd r.hourly.interval =
      r.hourly.values.length)

/-- The `for model in range(len(responses))` loop of
`parse_multi_model_response`: response `i` is paired with
`params["models"][i]`, which raises `IndexError` when `i` falls outside
the requested model list; per-model dataframes are concatenated in order. -/
def parseLoop (models : List String) (city : String) (ct : Int) :
    Nat → List OMResponse → Except String (List OMRow)
  | _, [] => .ok []
  | i, resp :: rest =>
    match models[i]? with
    | none => .error "IndexError: list index out of range"
    | some modelName =>
      match modelRows resp modelName city ct with
      | .error e => .error e
      | .ok rows =>
        match parseLoop models city ct (i + 1) rest with
        | .error e => .error e
        | .ok restRows => .ok (rows ++ restRows)

/-- `parse_multi_model_response`: the loop from index 0, returning the
concatenated dataframe together with the fetch timestamp
(`get_current_timestamp()`, an explicit argument here). -/
def parse_multi_model_response (responses : List OMResponse)
    (models : List String) (city : String) (ct : Int) :
    Except String (List OMRow × Int) :=
  (parseLoop models city ct 0 responses).map (fun rows => (rows, ct))

/-- `_get` with a given retry budget: attempts are numbered
`1, ..., retries` and the last exception starts out absent. -/
def accuweather_get (respond : Nat → HttpOutcome) (retries : Nat) : GetTrace :=
  getLoop respond retries (List.range' 1 retries) none

end Galton

namespace Galton

/-! ## Lemmas about `dropDuplicates` -/

theorem dropDuplicates_sublist {α β : Type} [DecidableEq β] (key : α → β) :
    ∀ (seen : List β) (l : List α), (dropDuplicates key seen l).Sublist l := by
  intro seen l
  induction l generalizing seen with
  | nil => simp [dropDuplicates]
  | cons x xs ih =>
    by_cases h : key x ∈ seen
    · simp only [dropDuplicates, if_pos h]
      exact (ih seen).trans (List.sublist_cons_self x xs)
    · simp only [dropDuplicates, if_neg h]
      exact (ih (key x :: seen)).cons₂ x

theorem mem_dropDuplicates {α β : Type} [DecidableEq β] {key : α → β}
    {seen : List β} {l : List α} {x : α}
    (hx : x ∈ dropDuplicates key seen l) : x ∈ l :=
  (dropDuplicates_sublist key seen l).mem hx

theorem dropDuplicates_keys_not_seen {α β : Type} [DecidableEq β] (key : α → β) :
    ∀ (seen : List β) (l : List α) (x : α),
      x ∈ dropDuplicates key seen l → key x ∉ seen := by
  intro seen l
  induction l generalizing seen with
  | nil => intro x hx; simp [dropDuplicates] at hx
  | cons y ys ih =>
    intro x hx
    by_cases h : key y ∈ seen
    · rw [dropDuplicates, if_pos h] at hx
      exact ih seen x hx
    · rw [dropDuplicates, if_neg h, List.mem_cons] at hx
      rcases hx with rfl | hx
      · exact h
      · intro hmem
        exact ih (key y :: seen) x hx (List.mem_cons_of_mem _ hmem)

theorem dropDuplicates_pairwise {α β : Type} [DecidableEq β] (key : α → β) :
    ∀ (seen : List β) (l : List α),
      (dropDuplicates key seen l).Pairwise (fun a b => key a ≠ key b) := by
  intro seen l
  induction l generalizing seen with
  | nil => simp [dropDuplicates]
  | cons x xs ih =>
    by_cases h : key x ∈ seen
    · rw [dropDuplicates, if_pos h]; exact ih seen
    · rw [dropDuplicates, if_neg h]
      refine List.Pairwise.cons ?_ (ih (key x :: seen))
      intro b hb heq
      exact dropDuplicates_keys_not_seen key _ _ b hb (heq ▸ List.mem_cons_self _ _)

end Galton

namespace Galton

/-! ## C1 and C2 -/

/-- C1: the causality filter retains exactly the input records whose valid
time (`datetime`) is strictly later than their issue time
(`model_timestamp`): the multiplicity of any record in its output is its
input multiplicity when `model_timestamp < datetime` and zero otherwise,
and every record retained by the full `filter_redundant_forecasts` pass
satisfies the causality invariant. -/
theorem causality_filter_retains_exactly_causal_records
    (df : List ForecastRow) (r : ForecastRow) :
    ((causality_filter df).count r =
      if r.model_timestamp < r.datetime then df.count r else 0)
    ∧ (r ∈ causality_filter df ↔ r ∈ df ∧ r.model_timestamp < r.datetime)
    ∧ (r ∈ filter_redundant_forecasts df → r.model_timestamp < r.datetime) := by
  refine ⟨?_, ?_, ?_⟩
  · by_cases h : r.model_timestamp < r.datetime
    · rw [if_pos h]
      exact List.count_filter (by simpa using h)
    · rw [if_neg h, List.count_eq_zero]
      intro hmem
      rcases List.mem_filter.mp hmem with ⟨-, hr⟩
      exact h (by simpa using hr)
  · constructor
    · intro hmem
      rcases List.mem_filter.mp hmem with ⟨hin, hr⟩
      exact ⟨hin, by simpa using hr⟩
    · intro ⟨hin, hr⟩
      exact List.mem_filter.mpr ⟨hin, by simpa using hr⟩
  · intro hmem
    have hc : r ∈ causality_filter df := mem_dropDuplicates hmem
    rcases List.mem_filter.mp hc with ⟨-, hr⟩
    simpa using hr

/-- Witness for C1 at a concrete batch: a causal record is kept with its
multiplicity, a non-causal one is dropped, and the retained record
satisfies the invariant. -/
theorem causality_filter_retains_exactly_causal_records_witness :
    (causality_filter
        [⟨5, some 20, "Austin", 1, "m", "1", "d"⟩,
         ⟨1, some 20, "Austin", 3, "m", "1", "d"⟩]).count
      ⟨5, some 20, "Austin", 1, "m", "1", "d"⟩ =
      [⟨5, some 20, "Austin", 1, "m", "1", "d"⟩,
       (⟨1, some 20, "Austin", 3, "m", "1", "d"⟩ : ForecastRow)].count
        ⟨5, some 20, "Austin", 1, "m", "1", "d"⟩
    ∧ ((⟨5, some 20, "Austin", 1, "m", "1", "d"⟩ : ForecastRow) ∈
        filter_redundant_forecasts
          [⟨5, some 20, "Austin", 1, "m", "1", "d"⟩,
           ⟨1, some 20, "Austin", 3, "m", "1", "d"⟩] →
        (1 : Int) < 5) := by
  constructor
  · have h := (causality_filter_retains_exactly_causal_records
      [⟨5, some 20, "Austin", 1, "m", "1", "d"⟩,
       ⟨1, some 20, "Austin", 3, "m", "1", "d"⟩]
      ⟨5, some 20, "Austin", 1, "m", "1", "d"⟩).1
    rwa [if_pos (by decide)] at h
  · intro hmem
    exact (causality_filter_retains_exactly_causal_records _ _).2.2 hmem

/-- C2 as stated is false: two retained records may share
`(location, model_run, valid_time_utc, issue_time_utc)` while differing in
`forecast_temperature`, because `drop_duplicates` keys on a seven-column
subset that includes the temperature.  Both rows below survive
`filter_redundant_forecasts` yet agree on city, model name, model id,
datetime and model timestamp. -/
theorem dedup_four_tuple_counterexample :
    filter_redundant_forecasts
        [⟨2, some 10, "Chicago", 1, "gfs", "7", "2025-01-01"⟩,
         ⟨2, some 11, "Chicago", 1, "gfs", "7", "2025-01-01"⟩] =
      [⟨2, some 10, "Chicago", 1, "gfs", "7", "2025-01-01"⟩,
       ⟨2, some 11, "Chicago", 1, "gfs", "7", "2025-01-01"⟩]
    ∧ (⟨2, some 10, "Chicago", 1, "gfs", "7", "2025-01-01"⟩ : ForecastRow) ≠
        ⟨2, some 11, "Chicago", 1, "gfs", "7", "2025-01-01"⟩ := by
  constructor
  · rfl
  · decide

/-- C2 amended: after `filter_redundant_forecasts`, no two records in the
output share the full seven-column deduplication key
`(datetime, forecast_temperature, city, model_timestamp, model_name,
model_id, date)`. -/
theorem dedup_unique_on_seven_column_key (df : List ForecastRow) :
    (filter_redundant_forecasts df).Pairwise
      (fun a b => dedupKey a ≠ dedupKey b) :=
  dropDuplicates_pairwise dedupKey [] (causality_filter df)

end Galton

namespace Galton

/-! ## Helper lemmas for `Except`-valued traversals and uniform products -/

theorem mapM_ok_of_forall {α β : Type} {f : α → Except String β} {g : α → β} :
    ∀ (l : List α), (∀ x ∈ l, f x = .ok (g x)) → l.mapM f = Except.ok (l.map g) := by
  intro l h
  induction l with
  | nil => rfl
  | cons x xs ih =>
    rw [List.mapM_cons, h x (List.mem_cons_self _ _),
      ih (fun y hy => h y (List.mem_cons_of_mem _ hy))]
    rfl

theorem length_flatMap_uniform {α β : Type} {f : α → List β} {m : Nat}
    (hf : ∀ x, (f x).length = m) :
    ∀ (l : List α), (l.flatMap f).length = l.length * m := by
  intro l
  induction l with
  | nil => simp
  | cons x xs ih =>
    simp only [List.flatMap_cons, List.length_append, ih, hf, List.length_cons]
    ring

theorem getElem?_flatMap_uniform {α β : Type} {f : α → List β} {m : Nat}
    (hf : ∀ x, (f x).length = m) :
    ∀ (l : List α) (i j : Nat), j < m → ∀ (hi : i < l.length),
      (l.flatMap f)[i * m + j]? = (f l[i])[j]? := by
  intro l
  induction l with
  | nil => intro i j hj hi; simp at hi
  | cons x xs ih =>
    intro i j hj hi
    cases i with
    | zero =>
      simp only [List.flatMap_cons, Nat.zero_mul, Nat.zero_add, List.getElem?_append,
        List.getElem_cons_zero]
      rw [if_pos (by rw [hf]; exact hj)]
    | succ i =>
      have hlen : (f x).length ≤ (i + 1) * m + j := by
        rw [hf, Nat.succ_mul]
        omega
      simp only [List.flatMap_cons, List.getElem?_append, List.getElem_cons_succ]
      rw [if_neg (by omega)]
      have harith : (i + 1) * m + j - (f x).length = i * m + j := by
        rw [hf, Nat.succ_mul]
        omega
      rw [harith]
      exact ih i j hj (by simpa using hi)

end Galton

namespace Galton

/-! ## C8 and C10 -/

theorem lookupFmt_of_parse_ok {s f : String} {dt : CalDate}
    (h : parse_date s f = .ok dt) : ∃ fmt, lookupFmt f = some fmt := by
  unfold parse_date at h
  cases hl : lookupFmt f with
  | none => rw [hl] at h; exact absurd h (by simp)
  | some fmt => exact ⟨fmt, rfl⟩

theorem format_date_ok {f : String} {fmt : String} (hl : lookupFmt f = some fmt)
    (dt : CalDate) : format_date dt f = .ok (renderDate dt f) := by
  unfold format_date
  rw [hl]

/-- C8: date-range enumeration is empty when the parsed start date falls
after the parsed end date, and otherwise produces one formatted string per
calendar day from start to end inclusive, ascending, rendered in the start
date's format; on the concrete pair 2025-01-01 .. 2025-01-03 it yields
exactly those three dates. -/
theorem enumerate_date_range_spec (s e fs : String) (ef : Option String)
    (today startDt endDt : CalDate)
    (hs : parse_date s fs = .ok startDt)
    (he : parse_date e (ef.getD fs) = .ok endDt) :
    (daysFromCivil endDt < daysFromCivil startDt →
      enumerate_date_range s fs (some e) ef today = .ok [])
    ∧ (daysFromCivil startDt ≤ daysFromCivil endDt →
      enumerate_date_range s fs (some e) ef today =
        .ok ((List.range ((daysFromCivil endDt - daysFromCivil startDt).toNat + 1)).map
          (fun i => renderDate (civilFromDays (daysFromCivil startDt + i)) fs)))
    ∧ enumerate_date_range "2025-01-01" "YYYY-MM-DD" (some "2025-01-03") none today =
        .ok ["2025-01-01", "2025-01-02", "2025-01-03"] := by
  obtain ⟨fmt, hfmt⟩ := lookupFmt_of_parse_ok hs
  refine ⟨?_, ?_, ?_⟩
  · intro hlt
    simp only [enumerate_date_range, hs, he]
    rw [if_pos (by exact hlt)]
  · intro hle
    simp only [enumerate_date_range, hs, he]
    rw [if_neg (by omega)]
    exact mapM_ok_of_forall _ (fun i _ => format_date_ok hfmt _)
  · rfl

/-- Witness for C8: concrete inclusive range and concrete empty range. -/
theorem enumerate_date_range_spec_witness :
    enumerate_date_range "2025-01-05" "YYYY-MM-DD" (some "2025-01-03") none
        ⟨2025, 6, 1⟩ = .ok []
    ∧ enumerate_date_range "2025-01-01" "YYYY-MM-DD" (some "2025-01-03") none
        ⟨2025, 6, 1⟩ = .ok ["2025-01-01", "2025-01-02", "2025-01-03"] := by
  constructor
  · exact (enumerate_date_range_spec "2025-01-05" "2025-01-03" "YYYY-MM-DD" none
      ⟨2025, 6, 1⟩ ⟨2025, 1, 5⟩ ⟨2025, 1, 3⟩ rfl rfl).1 (by decide)
  · exact (enumerate_date_range_spec "2025-01-01" "2025-01-03" "YYYY-MM-DD" none
      ⟨2025, 6, 1⟩ ⟨2025, 1, 1⟩ ⟨2025, 1, 3⟩ rfl rfl).2.2

/-- C10: the candidate builder raises when `prefixes` is empty, returns the
empty list when `dates` is empty, and otherwise returns one
`prefix + date + suffix` string per combination, ordered with prefixes
varying slowest, then dates, then suffixes; an absent or empty suffix list
acts as the single empty suffix. -/
theorem build_file_stem_candidates_spec (prefixes dates : List String)
    (suffixes : Option (List String)) :
    (prefixes = [] →
      build_file_stem_candidates prefixes dates suffixes =
        .error "prefixes must contain at least one prefix")
    ∧ (prefixes ≠ [] → dates = [] →
      build_file_stem_candidates prefixes dates suffixes = .ok [])
    ∧ (prefixes ≠ [] →
      ∃ out, build_file_stem_candidates prefixes dates suffixes = .ok out ∧
        out.length =
          prefixes.length * dates.length * (suffixesList suffixes).length ∧
        ∀ i j k (hi : i < prefixes.length) (hj : j < dates.length)
          (hk : k < (suffixesList suffixes).length),
          out[(i * dates.length + j) * (suffixesList suffixes).length + k]? =
            some (prefixes[i] ++ dates[j] ++ (suffixesList suffixes)[k])) := by
  refine ⟨?_, ?_, ?_⟩
  · intro h
    subst h
    rfl
  · intro hp hd
    subst hd
    unfold build_file_stem_candidates
    rw [if_neg (by simpa using hp)]
    rfl
  · intro hp
    set S := suffixesList suffixes with hS
    by_cases hd : dates = []
    · subst hd
      refine ⟨[], ?_, by simp, by intro i j k hi hj hk; simp at hj⟩
      unfold build_file_stem_candidates
      rw [if_neg (by simpa using hp)]
      rfl
    · have houter : ∀ p : String,
          ((fun p => dates.flatMap (fun d => S.map (fun suf => p ++ d ++ suf))) p).length =
            dates.length * S.length := by
        intro p
        exact length_flatMap_uniform (fun d => by simp) dates
      refine ⟨prefixes.flatMap (fun p =>
          dates.flatMap (fun d => S.map (fun suf => p ++ d ++ suf))), ?_, ?_, ?_⟩
      · unfold build_file_stem_candidates
        rw [if_neg (by simpa using hp), if_neg (by simpa using hd)]
      · rw [length_flatMap_uniform houter prefixes]
        ring
      · intro i j k hi hj hk
        have hidx : (i * dates.length + j) * S.length + k =
            i * (dates.length * S.length) + (j * S.length + k) := by
          ring
        rw [hidx]
        have hjk : j * S.length + k < dates.length * S.length := by
          calc j * S.length + k < j * S.length + S.length := by omega
            _ = (j + 1) * S.length := by ring
            _ ≤ dates.length * S.length := Nat.mul_le_mul_right _ hj
        rw [getElem?_flatMap_uniform houter prefixes i (j * S.length + k) hjk hi]
        rw [getElem?_flatMap_uniform (fun d => by simp) dates j k hk hj]
        rw [List.getElem?_map, List.getElem?_eq_getElem hk]
        rfl

/-- Witness for C10: the three behaviours at concrete inputs. -/
theorem build_file_stem_candidates_spec_witness :
    build_file_stem_candidates [] ["d"] none =
      .error "prefixes must contain at least one prefix"
    ∧ build_file_stem_candidates ["a"] [] none = .ok []
    ∧ ∃ out,
        build_file_stem_candidates ["a_", "b_"] ["d1", "d2"] (some ["x", "y"]) =
          .ok out ∧
        out.length = 8 ∧ out[5]? = some "b_d1y" := by
  refine ⟨(build_file_stem_candidates_spec [] ["d"] none).1 rfl,
    (build_file_stem_candidates_spec ["a"] [] none).2.1 (by decide) rfl, ?_⟩
  obtain ⟨out, h1, h2, h3⟩ :=
    (build_file_stem_candidates_spec ["a_", "b_"] ["d1", "d2"]
      (some ["x", "y"])).2.2 (by decide)
  refine ⟨out, h1, by simpa using h2, ?_⟩
  have := h3 1 0 1 (by decide) (by decide) (by decide)
  simpa using this

end Galton

namespace Galton

/-! ## C3: retry policy of the AccuWeather HTTP helper -/

theorem getLoop_success (respond : Nat → HttpOutcome) (retries : Nat) :
    ∀ (n a : Nat) (exc : Option Nat) (k body : Nat),
      a + n = retries + 1 → a ≤ k → k ≤ retries →
      respond k = .success body →
      (∀ i, a ≤ i → i < k → ∃ e, respond i = .transient e) →
      getLoop respond retries (List.range' a n) exc =
        ⟨.ok body, (List.range' a (k - a)).map (fun t : Nat => (3 / 4 : ℚ) * t),
         List.range' a (k - a + 1)⟩ := by
  intro n
  induction n with
  | zero => intro a exc k body hsum hak hkr _ _; omega
  | succ n ih =>
    intro a exc k body hsum hak hkr hk htrans
    rw [List.range'_succ a n 1]
    by_cases hEq : a = k
    · subst hEq
      simp only [getLoop, hk]
      have h0 : a - a = 0 := Nat.sub_self a
      rw [h0]
      simp [List.range'_succ]
    · have hlt : a < k := lt_of_le_of_ne hak hEq
      obtain ⟨e, he⟩ := htrans a le_rfl hlt
      simp only [getLoop, he]
      rw [if_neg (by omega)]
      rw [ih (a + 1) (some e) k body (by omega) (by omega) hkr hk
        (fun i h1 h2 => htrans i (by omega) h2)]
      have h1 : k - a = (k - (a + 1)) + 1 := by omega
      rw [h1, List.range'_succ a (k - (a + 1)) 1, List.range'_succ a (k - (a + 1) + 1) 1,
        List.map_cons]

theorem getLoop_all_transient (respond : Nat → HttpOutcome) (retries : Nat) :
    ∀ (n a : Nat) (exc : Option Nat) (e : Nat),
      a + n = retries + 1 → 1 ≤ n →
      (∀ i, a ≤ i → i ≤ retries → ∃ e, respond i = .transient e) →
      respond retries = .transient e →
      getLoop respond retries (List.range' a n) exc =
        ⟨.networkError (some e),
         (List.range' a (retries - a)).map (fun t : Nat => (3 / 4 : ℚ) * t),
         List.range' a (retries - a + 1)⟩ := by
  intro n
  induction n with
  | zero => intro a exc e hsum hn _ _; omega
  | succ n ih =>
    intro a exc e hsum hn htrans hlast
    rw [List.range'_succ a n 1]
    by_cases hEq : a = retries
    · subst hEq
      simp only [getLoop, hlast, if_pos rfl]
      have h0 : a - a = 0 := Nat.sub_self a
      rw [h0]
      simp [List.range'_succ]
    · have hlt : a < retries := by omega
      obtain ⟨ea, hea⟩ := htrans a le_rfl (by omega)
      simp only [getLoop, hea]
      rw [if_neg hEq]
      rw [ih (a + 1) (some ea) e (by omega) (by omega)
        (fun i h1 h2 => htrans i (by omega) h2) hlast]
      have h1 : retries - a = (retries - (a + 1)) + 1 := by omega
      rw [h1, List.range'_succ a (retries - (a + 1)) 1,
        List.range'_succ a (retries - (a + 1) + 1) 1, List.map_cons]

theorem getLoop_fatal (respond : Nat → HttpOutcome) (retries : Nat) :
    ∀ (n a : Nat) (exc : Option Nat) (k status : Nat),
      a + n = retries + 1 → a ≤ k → k ≤ retries →
      respond k = .fatal status →
      (∀ i, a ≤ i → i < k → ∃ e, respond i = .transient e) →
      getLoop respond retries (List.range' a n) exc =
        ⟨.providerError status,
         (List.range' a (k - a)).map (fun t : Nat => (3 / 4 : ℚ) * t),
         List.range' a (k - a + 1)⟩ := by
  intro n
  induction n with
  | zero => intro a exc k status hsum hak hkr _ _; omega
  | succ n ih =>
    intro a exc k status hsum hak hkr hk htrans
    rw [List.range'_succ a n 1]
    by_cases hEq : a = k
    · subst hEq
      simp only [getLoop, hk]
      have h0 : a - a = 0 := Nat.sub_self a
      rw [h0]
      simp [List.range'_succ]
    · have hlt : a < k := lt_of_le_of_ne hak hEq
      obtain ⟨e, he⟩ := htrans a le_rfl hlt
      simp only [getLoop, he]
      rw [if_neg (by omega)]
      rw [ih (a + 1) (some e) k status (by omega) (by omega) hkr hk
        (fun i h1 h2 => htrans i (by omega) h2)]
      have h1 : k - a = (k - (a + 1)) + 1 := by omega
      rw [h1, List.range'_succ a (k - (a + 1)) 1, List.range'_succ a (k - (a + 1) + 1) 1,
        List.map_cons]

/-- C3: for the HTTP helper with retry budget `retries`, transient faults
on attempts `1..k-1` followed by a success on attempt `k ≤ retries` return
the success, sleeping `0.75 * attempt` between consecutive attempts (so
`0.75s`, `1.5s`, ...); if every attempt fails transiently the call raises
a network error wrapping the last fault after exactly `retries` attempts;
and a non-transient (provider) error on attempt `k` is surfaced
immediately with no further attempt and no further sleep. -/
theorem accuweather_get_retry_policy (respond : Nat → HttpOutcome) (retries : Nat) :
    (∀ k body, 1 ≤ k → k ≤ retries → respond k = .success body →
      (∀ i, 1 ≤ i → i < k → ∃ e, respond i = .transient e) →
      accuweather_get respond retries =
        ⟨.ok body, (List.range' 1 (k - 1)).map (fun t : Nat => (3 / 4 : ℚ) * t),
         List.range' 1 k⟩)
    ∧ (∀ e, 1 ≤ retries →
      (∀ i, 1 ≤ i → i ≤ retries → ∃ e, respond i = .transient e) →
      respond retries = .transient e →
      accuweather_get respond retries =
        ⟨.networkError (some e),
         (List.range' 1 (retries - 1)).map (fun t : Nat => (3 / 4 : ℚ) * t),
         List.range' 1 retries⟩ ∧
      (accuweather_get respond retries).attempts.length = retries)
    ∧ (∀ k status, 1 ≤ k → k ≤ retries → respond k = .fatal status →
      (∀ i, 1 ≤ i → i < k → ∃ e, respond i = .transient e) →
      accuweather_get respond retries =
        ⟨.providerError status,
         (List.range' 1 (k - 1)).map (fun t : Nat => (3 / 4 : ℚ) * t),
         List.range' 1 k⟩) := by
  refine ⟨?_, ?_, ?_⟩
  · intro k body hk1 hkr hk htrans
    have h := getLoop_success respond retries retries 1 none k body (by omega) hk1 hkr hk
      (fun i h1 h2 => htrans i h1 h2)
    have hk2 : k - 1 + 1 = k := by omega
    rw [hk2] at h
    simpa [accuweather_get] using h
  · intro e hr htrans hlast
    have h := getLoop_all_transient respond retries retries 1 none e (by omega) hr
      (fun i h1 h2 => htrans i h1 h2) hlast
    have h2 : retries - 1 + 1 = retries := by omega
    rw [h2] at h
    refine ⟨by simpa [accuweather_get] using h, ?_⟩
    rw [accuweather_get, h]
    simp
  · intro k status hk1 hkr hk htrans
    have h := getLoop_fatal respond retries retries 1 none k status (by omega) hk1 hkr hk
      (fun i h1 h2 => htrans i h1 h2)
    have hk2 : k - 1 + 1 = k := by omega
    rw [hk2] at h
    simpa [accuweather_get] using h

/-- Witness for C3: two transient faults then a success on the third of
three attempts, and three transient faults exhausting the budget. -/
theorem accuweather_get_retry_policy_witness :
    accuweather_get (fun i => if i < 3 then .transient i else .success 42) 3 =
      ⟨.ok 42, (List.range' 1 (3 - 1)).map (fun t : Nat => (3 / 4 : ℚ) * t),
       List.range' 1 3⟩
    ∧ accuweather_get (fun i => .transient i) 3 =
      ⟨.networkError (some 3),
       (List.range' 1 (3 - 1)).map (fun t : Nat => (3 / 4 : ℚ) * t),
       List.range' 1 3⟩ := by
  constructor
  · exact (accuweather_get_retry_policy
      (fun i => if i < 3 then .transient i else .success 42) 3).1 3 42 (by decide)
      (by decide) rfl (fun i h1 h2 => ⟨i, by simp [h2]⟩)
  · exact ((accuweather_get_retry_policy (fun i => .transient i) 3).2.1 3 (by decide)
      (fun i h1 h2 => ⟨i, rfl⟩) rfl).1

end Galton

namespace Galton

/-! ## C5: partial-failure isolation and aggregation -/

theorem stageLoop_eq {ρ : Type} :
    ∀ (cities : List (String × Except String (List ρ))),
      stageLoop cities = (framesOf cities, failuresOf cities) := by
  intro cities
  induction cities with
  | nil => rfl
  | cons c rest ih =>
    obtain ⟨city, fetch⟩ := c
    cases fetch with
    | ok df => simp [stageLoop, ih, framesOf, failuresOf, List.filterMap_cons, Except.toOption]
    | error exc =>
      simp [stageLoop, ih, framesOf, failuresOf, List.filterMap_cons, Except.toOption]

theorem framesOf_ne_nil_of_ok {ρ : Type}
    {cities : List (String × Except String (List ρ))}
    (h : ∃ c ∈ cities, isOkFetch c.2 = true) : framesOf cities ≠ [] := by
  obtain ⟨c, hc, hok⟩ := h
  cases hfetch : c.2 with
  | error e => rw [hfetch] at hok; simp [isOkFetch] at hok
  | ok df =>
    intro hnil
    have : df ∈ framesOf cities :=
      List.mem_filterMap.mpr ⟨c, hc, by rw [hfetch]; rfl⟩
    rw [hnil] at this
    exact List.not_mem_nil df this

theorem framesOf_eq_nil_of_all_failed {ρ : Type}
    {cities : List (String × Except String (List ρ))}
    (h : ∀ c ∈ cities, isOkFetch c.2 = false) : framesOf cities = [] := by
  rw [framesOf, List.filterMap_eq_nil_iff]
  intro c hc
  cases hfetch : c.2 with
  | error e => rfl
  | ok df => have := h c hc; rw [hfetch] at this; simp [isOkFetch] at this

theorem failuresOf_length_of_all_failed {ρ : Type} :
    ∀ (cities : List (String × Except String (List ρ))),
      (∀ c ∈ cities, isOkFetch c.2 = false) →
      (failuresOf cities).length = cities.length := by
  intro cities
  induction cities with
  | nil => intro _; rfl
  | cons c rest ih =>
    intro h
    obtain ⟨city, fetch⟩ := c
    cases fetch with
    | ok df =>
      have := h (city, .ok df) (List.mem_cons_self _ _)
      simp [isOkFetch] at this
    | error exc =>
      have hrest := ih (fun x hx => h x (List.mem_cons_of_mem _ hx))
      simp only [failuresOf, List.filterMap_cons, List.length_cons] at hrest ⊢
      rw [hrest]

/-- C5: a per-location failure is recorded with its reason and does not
stop the remaining locations; the run succeeds — returning the
concatenation of the successful frames and naming exactly the failed
locations in order — precisely when at least one location succeeded, and
raises the aggregate all-failed error listing one reason per location
exactly when every location of a non-empty registry failed (an empty
registry raises the distinct no-cities error). -/
theorem stage_all_cities_partial_failure {ρ : Type}
    (cities : List (String × Except String (List ρ))) :
    ((∃ c ∈ cities, isOkFetch c.2 = true) →
      stage_accuweather_12h_all_cities cities =
        .ok ((framesOf cities).flatten, failuresOf cities))
    ∧ ((∀ c ∈ cities, isOkFetch c.2 = false) → cities ≠ [] →
      stage_accuweather_12h_all_cities cities =
        .error (.allFailed (failuresOf cities)) ∧
      (failuresOf cities).length = cities.length)
    ∧ (cities = [] →
      stage_accuweather_12h_all_cities cities = .error .noCities)
    ∧ ((∃ out, stage_accuweather_12h_all_cities cities = .ok out) ↔
      ∃ c ∈ cities, isOkFetch c.2 = true) := by
  have hloop := stageLoop_eq cities
  refine ⟨?_, ?_, ?_, ?_⟩
  · intro hok
    rw [stage_accuweather_12h_all_cities, hloop]
    rw [if_neg (by simpa [List.isEmpty_iff] using framesOf_ne_nil_of_ok hok)]
  · intro hfail hne
    have hlen := failuresOf_length_of_all_failed cities hfail
    have hfnil := framesOf_eq_nil_of_all_failed hfail
    refine ⟨?_, hlen⟩
    rw [stage_accuweather_12h_all_cities, hloop]
    rw [if_pos (by simpa [List.isEmpty_iff] using hfnil)]
    rw [if_neg (by
      simp only [List.isEmpty_iff]
      intro hnil
      rw [hnil] at hlen
      exact hne (List.eq_nil_of_length_eq_zero hlen.symm))]
  · intro hnil
    subst hnil
    rfl
  · constructor
    · rintro ⟨out, hout⟩
      by_contra hno
      push_neg at hno
      have hfail : ∀ c ∈ cities, isOkFetch c.2 = false := by
        intro c hc
        have := hno c hc
        cases h : isOkFetch c.2
        · rfl
        · exact absurd h this
      have hfnil := framesOf_eq_nil_of_all_failed hfail
      rw [stage_accuweather_12h_all_cities, hloop] at hout
      rw [if_pos (by simpa [List.isEmpty_iff] using hfnil)] at hout
      exact Except.noConfusion hout
    · intro hok
      refine ⟨((framesOf cities).flatten, failuresOf cities), ?_⟩
      rw [stage_accuweather_12h_all_cities, hloop]
      rw [if_neg (by simpa [List.isEmpty_iff] using framesOf_ne_nil_of_ok hok)]

/-- Witness for C5: five locations with two network failures succeed with
exactly those two named failures; five failures out of five raise the
aggregate error naming all five. -/
theorem stage_all_cities_partial_failure_witness :
    stage_accuweather_12h_all_cities
        [("Austin", .ok [1]), ("Chicago", .error "NetworkError"),
         ("Denver", .ok [2]), ("Miami", .error "NetworkError"),
         ("New York", .ok [3])] =
      .ok ([(1 : Int), 2, 3],
        [("Chicago", "NetworkError"), ("Miami", "NetworkError")])
    ∧ stage_accuweather_12h_all_cities
        [("Austin", (.error "NetworkError" : Except String (List Int))),
         ("Chicago", .error "NetworkError"), ("Denver", .error "NetworkError"),
         ("Miami", .error "NetworkError"), ("New York", .error "NetworkError")] =
      .error (.allFailed
        [("Austin", "NetworkError"), ("Chicago", "NetworkError"),
         ("Denver", "NetworkError"), ("Miami", "NetworkError"),
         ("New York", "NetworkError")]) := by
  constructor
  · have h := (stage_all_cities_partial_failure
      [("Austin", .ok [1]), ("Chicago", .error "NetworkError"),
       ("Denver", .ok [2]), ("Miami", .error "NetworkError"),
       ("New York", (.ok [3] : Except String (List Int)))]).1
      ⟨("Austin", .ok [1]), List.mem_cons_self _ _, rfl⟩
    simpa [framesOf, failuresOf, Except.toOption] using h
  · have h := ((stage_all_cities_partial_failure
      [("Austin", (.error "NetworkError" : Except String (List Int))),
       ("Chicago", .error "NetworkError"), ("Denver", .error "NetworkError"),
       ("Miami", .error "NetworkError"), ("New York", .error "NetworkError")]).2.1
      (by intro c hc; fin_cases hc <;> rfl) (by simp)).1
    simpa [failuresOf] using h

end Galton

namespace Galton

/-! ## C7 and C9: timestamp round-trip and non-mutation of inputs -/

theorem getElem?_append_lt {α : Type} (l1 l2 : List α) (i : Nat)
    (h : i < l1.length) : (l1 ++ l2)[i]? = l1[i]? := by
  rw [List.getElem?_append]
  exact if_pos h

theorem heapRead_alloc {α : Type} (h : List (List α)) (v : List α) :
    heapRead (heapAlloc h v).1 (heapAlloc h v).2 = v := by
  simp [heapRead, heapAlloc, List.getD_eq_getElem?_getD, List.getElem?_concat_length]

/-- C7: converting a zone-aware timestamp to UTC preserves the instant it
denotes, and converting the result back to the original zone reproduces
the original wall-clock value exactly; accordingly the `datetime_utc`
column produced by `convert_datetime_to_utc` is the per-row UTC
normalization of the `datetime` column. -/
theorem to_utc_roundtrip_exact (t : ZonedDatetime) (df : List ConvRow)
    (drop : Bool) :
    tz_convert t.offsetMinutes (to_utc t) = t
    ∧ instantOf (to_utc t) = instantOf t
    ∧ (convert_datetime_to_utc df drop).map (fun r => r.datetime_utc) =
        df.map (fun r => r.datetime.map to_utc)
    ∧ ∀ r ∈ df, ∀ u, r.datetime = some u →
        tz_convert u.offsetMinutes (to_utc u) = u := by
  refine ⟨?_, ?_, ?_, ?_⟩
  · obtain ⟨o, w⟩ := t
    simp [tz_convert, to_utc, instantOf]
  · obtain ⟨o, w⟩ := t
    simp [tz_convert, to_utc, instantOf]
  · cases drop with
    | true =>
      simp [convert_datetime_to_utc, dropDatetimeColumn, addUtcColumn,
        Function.comp]
    | false =>
      simp [convert_datetime_to_utc, addUtcColumn, Function.comp]
  · intro r _ u _
    obtain ⟨o, w⟩ := u
    simp [tz_convert, to_utc, instantOf]

/-- Witness for C7: round trip of a concrete aware timestamp in the
UTC-05:00 zone through a concrete dataframe row. -/
theorem to_utc_roundtrip_exact_witness :
    tz_convert (-300) (to_utc ⟨-300, 540⟩) = ⟨-300, 540⟩
    ∧ tz_convert (-300) (to_utc ⟨-300, 540⟩) = ⟨-300, 540⟩ := by
  have h := to_utc_roundtrip_exact ⟨-300, 540⟩
    [⟨some ⟨-300, 540⟩, none, 0⟩] false
  exact ⟨h.1, h.2.2.2 ⟨some ⟨-300, 540⟩, none, 0⟩ (List.mem_cons_self _ _)
    ⟨-300, 540⟩ rfl⟩

/-- C9: each filtering pass and the timestamp normalization, run on the
object heap, leave the argument dataframe's object unchanged, return a
fresh object (a different identity than the input), and that fresh
object's value is the pure function of the input value — the passes are
observationally pure in their input. -/
theorem passes_do_not_mutate_input (hf : List (List ForecastRow)) (a : Nat)
    (hc : List (List ConvRow)) (b : Nat) (drop : Bool) :
    (a < hf.length →
      (filter_redundant_forecasts_st hf a).1[a]? = hf[a]?
      ∧ heapRead (filter_redundant_forecasts_st hf a).1
          (filter_redundant_forecasts_st hf a).2 =
          filter_redundant_forecasts (heapRead hf a)
      ∧ (filter_redundant_forecasts_st hf a).2 ≠ a)
    ∧ (a < hf.length →
      (filter_unused_forecast_data_st hf a).1[a]? = hf[a]?
      ∧ heapRead (filter_unused_forecast_data_st hf a).1
          (filter_unused_forecast_data_st hf a).2 =
          filter_unused_forecast_data (heapRead hf a)
      ∧ (filter_unused_forecast_data_st hf a).2 ≠ a)
    ∧ (b < hc.length →
      (convert_datetime_to_utc_st hc b drop).1[b]? = hc[b]?
      ∧ heapRead (convert_datetime_to_utc_st hc b drop).1
          (convert_datetime_to_utc_st hc b drop).2 =
          convert_datetime_to_utc (heapRead hc b) drop
      ∧ (convert_datetime_to_utc_st hc b drop).2 ≠ b) := by
  refine ⟨?_, ?_, ?_⟩
  · intro ha
    refine ⟨?_, ?_, ?_⟩
    · simp only [filter_redundant_forecasts_st, heapAlloc]
      rw [getElem?_append_lt _ _ _ (by simp; omega),
        getElem?_append_lt _ _ _ (by simp; omega),
        getElem?_append_lt _ _ _ ha]
    · simp only [filter_redundant_forecasts_st]
      rw [heapRead_alloc, heapRead_alloc, heapRead_alloc]
      rfl
    · simp only [filter_redundant_forecasts_st, heapAlloc]
      simp only [List.length_append, List.length_singleton]
      omega
  · intro ha
    refine ⟨?_, ?_, ?_⟩
    · simp only [filter_unused_forecast_data_st, heapAlloc]
      rw [getElem?_append_lt _ _ _ (by simp; omega),
        getElem?_append_lt _ _ _ ha]
    · simp only [filter_unused_forecast_data_st]
      rw [heapRead_alloc, heapRead_alloc]
    · simp only [filter_unused_forecast_data_st, heapAlloc]
      simp only [List.length_append, List.length_singleton]
      omega
  · intro hb
    have hneq : b ≠ hc.length := by omega
    cases drop with
    | true =>
      simp only [convert_datetime_to_utc_st]
      refine ⟨?_, ?_, ?_⟩
      · simp only [heapAlloc, heapWrite]
        rw [getElem?_append_lt _ _ _ (by simp [List.length_set]; omega),
          List.getElem?_set_ne (Ne.symm hneq),
          getElem?_append_lt _ _ _ hb]
      · rw [heapRead_alloc]
        simp only [heapWrite, heapAlloc, heapRead, List.getD_eq_getElem?_getD]
        rw [List.getElem?_set_self (by simp), List.getElem?_concat_length]
        simp [convert_datetime_to_utc]
      · simp only [heapAlloc, heapWrite]
        simp only [List.length_append, List.length_singleton, List.length_set]
        omega
    | false =>
      simp only [convert_datetime_to_utc_st]
      refine ⟨?_, ?_, ?_⟩
      · simp only [heapAlloc, heapWrite]
        rw [List.getElem?_set_ne (Ne.symm hneq), getElem?_append_lt _ _ _ hb]
      · simp only [heapAlloc, heapWrite, heapRead,
          List.getD_eq_getElem?_getD]
        rw [List.getElem?_set_self (by simp), List.getElem?_concat_length]
        simp [convert_datetime_to_utc]
      · simp only [heapAlloc, heapWrite]
        omega

/-- Witness for C9: a one-cell heap holding a one-row dataframe for each
kind of pass. -/
theorem passes_do_not_mutate_input_witness :
    (filter_redundant_forecasts_st [[⟨5, some 20, "Austin", 1, "m", "1", "d"⟩]] 0).1[0]? =
      some [⟨5, some 20, "Austin", 1, "m", "1", "d"⟩]
    ∧ (convert_datetime_to_utc_st [[⟨some ⟨-300, 540⟩, none, 0⟩]] 0 true).1[0]? =
      some [⟨some ⟨-300, 540⟩, none, 0⟩] := by
  constructor
  · have h := (passes_do_not_mutate_input
      [[⟨5, some 20, "Austin", 1, "m", "1", "d"⟩]] 0
      [[⟨some ⟨-300, 540⟩, none, 0⟩]] 0 true).1 (by decide)
    rw [h.1]
    rfl
  · have h := (passes_do_not_mutate_input
      [[⟨5, some 20, "Austin", 1, "m", "1", "d"⟩]] 0
      [[⟨some ⟨-300, 540⟩, none, 0⟩]] 0 true).2.2 (by decide)
    rw [h.1]
    rfl

end Galton

namespace Galton

/-! ## C4: staging writer overwrite semantics and dimension bootstrap -/

theorem fsLookup_fsWrite_self {α : Type} :
    ∀ (fs : List (String × α)) (name : String) (c : α),
      fsLookup (fsWrite fs name c) name = some c := by
  intro fs name c
  induction fs with
  | nil => simp [fsWrite, fsLookup, List.find?]
  | cons p fs ih =>
    by_cases hp : p.1 = name
    · simp [fsWrite, fsLookup, hp, List.find?]
    · simp only [fsWrite, if_neg hp]
      simp only [fsLookup, List.find?] at ih ⊢
      rw [show (decide (p.1 = name)) = false by simpa using hp]
      exact ih

theorem fsExists_fsWrite_self {α : Type} :
    ∀ (fs : List (String × α)) (name : String) (c : α),
      fsExists (fsWrite fs name c) name = true := by
  intro fs name c
  induction fs with
  | nil => simp [fsWrite, fsExists]
  | cons p fs ih =>
    by_cases hp : p.1 = name
    · simp [fsWrite, fsExists, hp]
    · simp only [fsWrite, if_neg hp, fsExists, List.any_cons]
      simp only [fsExists] at ih
      rw [ih]
      simp

theorem fsCount_fsWrite_fresh {α : Type} :
    ∀ (fs : List (String × α)) (name : String) (c : α),
      fsExists fs name = false →
      fsCount (fsWrite fs name c) name = 1 := by
  intro fs name c
  induction fs with
  | nil => intro _; simp [fsWrite, fsCount]
  | cons p fs ih =>
    intro h
    simp only [fsExists, List.any_cons, Bool.or_eq_false_iff] at h
    obtain ⟨hp, hfs⟩ := h
    have hp' : ¬ p.1 = name := by simpa using hp
    simp only [fsWrite, if_neg hp']
    simp only [fsCount, List.filter_cons]
    rw [show (decide (p.1 = name)) = false by simpa using hp']
    exact ih (by simpa [fsExists] using hfs)

theorem fsCount_fsWrite_existing {α : Type} :
    ∀ (fs : List (String × α)) (name : String) (c : α),
      fsExists fs name = true →
      fsCount (fsWrite fs name c) name = fsCount fs name := by
  intro fs name c
  induction fs with
  | nil => intro h; simp [fsExists] at h
  | cons p fs ih =>
    intro h
    by_cases hp : p.1 = name
    · simp [fsWrite, hp, fsCount, List.filter_cons]
    · simp only [fsExists, List.any_cons] at h
      rw [show (decide (p.1 = name)) = false by simpa using hp] at h
      simp only [Bool.false_or] at h
      simp only [fsWrite, if_neg hp, fsCount, List.filter_cons]
      rw [show (decide (p.1 = name)) = false by simpa using hp]
      simpa [fsCount] using ih h

/-- C4 as stated is false on two counts: `save` has no existence check, so
a second write for the same `(provider, location, run_timestamp)` key
replaces the first write's content (it is not a no-op), and `init` raises
`KeyError('dim_location')` — `SCHEMAS` has no such key — before the
dimension table could be replaced. -/
theorem save_idempotency_counterexample :
    save (save ([] : List (String × String)) "data/staging" "f"
        (some "2025-11-03T22:26:40.645330") "A") "data/staging" "f"
        (some "2025-11-03T22:26:40.645330") "B" =
      [("data/staging/f--2025-11-03T22_26_40.645330.parquet", "B")]
    ∧ ("B" : String) ≠ "A"
    ∧ init ([] : List (String × String)) "EMPTY" "SEEDED" =
        .error "dim_location" := by
  refine ⟨rfl, by decide, rfl⟩

/-- C4 amended: the staging writer computes one deterministic path per
`(provider, location, run_timestamp)` key and overwrites unconditionally —
writing the same key twice leaves exactly one file whose content is that
of the second write; the dimension-table seeding write, when invoked,
fully replaces the table's content on every invocation, but `init` itself
always fails with `KeyError('dim_location')` before reaching it. -/
theorem save_overwrites_and_dim_seed_replaces {α : Type}
    (fs : List (String × α)) (path file_name : String) (ts : Option String)
    (c1 c2 dimA dimB empty seeded : α)
    (hfresh : fsExists fs (savePath path file_name ts) = false) :
    fsLookup (save (save fs path file_name ts c1) path file_name ts c2)
        (savePath path file_name ts) = some c2
    ∧ fsCount (save (save fs path file_name ts c1) path file_name ts c2)
        (savePath path file_name ts) = 1
    ∧ fsLookup (seed_dim_location fs dimA) "local_data/dim_location.parquet" =
        some dimA
    ∧ fsLookup (seed_dim_location (seed_dim_location fs dimA) dimB)
        "local_data/dim_location.parquet" = some dimB
    ∧ init fs empty seeded = .error "dim_location" := by
  refine ⟨fsLookup_fsWrite_self _ _ _, ?_, fsLookup_fsWrite_self _ _ _,
    fsLookup_fsWrite_self _ _ _, rfl⟩
  rw [save, save,
    fsCount_fsWrite_existing _ _ _ (fsExists_fsWrite_self _ _ _),
    fsCount_fsWrite_fresh _ _ _ hfresh]

/-- Witness for C4's amended claim at a concrete filesystem. -/
theorem save_overwrites_and_dim_seed_replaces_witness :
    fsLookup (save (save ([] : List (String × String)) "data/staging" "f"
        (some "2025-11-03T22:26:40.645330") "A") "data/staging" "f"
        (some "2025-11-03T22:26:40.645330") "B")
      (savePath "data/staging" "f" (some "2025-11-03T22:26:40.645330")) =
      some "B"
    ∧ fsLookup (seed_dim_location (seed_dim_location
          ([] : List (String × String)) "rowsA") "rowsB")
        "local_data/dim_location.parquet" = some "rowsB" := by
  have h := save_overwrites_and_dim_seed_replaces
    ([] : List (String × String)) "data/staging" "f"
    (some "2025-11-03T22:26:40.645330") "A" "B" "rowsA" "rowsB" "E" "S" rfl
  exact ⟨h.1, h.2.2.2.1⟩

end Galton

namespace Galton

/-! ## C6: positional pairing of responses with requested models -/

theorem modelRows_ok {r : OMResponse} (hwf : wfResponse r = true)
    (modelName city : String) (ct : Int) :
    modelRows r modelName city ct = .ok (modelRowsPure r modelName city ct) := by
  simp only [wfResponse, Bool.and_eq_true, decide_eq_true_eq, ne_eq,
    decide_not, Bool.not_eq_true', decide_eq_false_iff_not] at hwf
  obtain ⟨hiv, hlen⟩ := hwf
  simp only [modelRows, dateRangeLeft, if_neg hiv]
  rw [if_pos (by simp [hlen])]
  rfl

theorem parseLoop_spec (models : List String) (city : String) (ct : Int) :
    ∀ (resps : List OMResponse) (i : Nat),
      (∀ r ∈ resps, wfResponse r = true) →
      ((i + resps.length ≤ models.length →
        parseLoop models city ct i resps =
          .ok ((List.range resps.length).flatMap (fun k =>
            modelRowsPure (resps.getD k default) (models.getD (i + k) "")
              city ct)))
       ∧ (i ≤ models.length → models.length < i + resps.length →
        parseLoop models city ct i resps =
          .error "IndexError: list index out of range")) := by
  intro resps
  induction resps with
  | nil =>
    intro i _
    constructor
    · intro _
      rfl
    · intro h1 h2
      simp at h2
      omega
  | cons r rest ih =>
    intro i hwf
    have hr : wfResponse r = true := hwf r (List.mem_cons_self _ _)
    have hrest : ∀ x ∈ rest, wfResponse x = true :=
      fun x hx => hwf x (List.mem_cons_of_mem _ hx)
    constructor
    · intro hle
      have hi : i < models.length := by simp at hle; omega
      have hmi : models[i]? = some models[i] := List.getElem?_eq_getElem hi
      simp only [parseLoop, hmi, modelRows_ok hr,
        (ih (i + 1) hrest).1 (by simp at hle ⊢; omega)]
      rw [List.length_cons, List.range_succ_eq_map, List.flatMap_cons,
        List.flatMap_map]
      have harg : models.getD (i + 0) "" = models[i] := by
        simp [List.getD_eq_getElem?_getD, hmi]
      rw [harg]
      have hfun : (fun k => modelRowsPure (rest.getD k default)
            (models.getD (i + 1 + k) "") city ct) =
          (fun x => modelRowsPure ((r :: rest).getD (Nat.succ x) default)
            (models.getD (i + Nat.succ x) "") city ct) := by
        funext k
        have h1 : i + 1 + k = i + Nat.succ k := by omega
        rw [h1]
        rfl
      rw [hfun]
      rfl
    · intro hle hgt
      by_cases hi : i < models.length
      · have hmi : models[i]? = some models[i] := List.getElem?_eq_getElem hi
        simp only [parseLoop, hmi, modelRows_ok hr,
          (ih (i + 1) hrest).2 (by omega) (by simp at hgt ⊢; omega)]
      · have hmi : models[i]? = none := by
          rw [List.getElem?_eq_none_iff]
          omega
        simp only [parseLoop, hmi]

/-- C6 as stated is false for the shorter-responses direction: with one
well-formed response and two requested models, the parser processes the
single response (paired with the first model name) and returns normally —
the count mismatch is not surfaced as an error. -/
theorem response_model_mismatch_counterexample :
    parse_multi_model_response [⟨7, 100, ⟨0, 3600, 3600, [5]⟩⟩]
        ["best_match", "ecmwf_ifs04"] "Austin" 200 =
      .ok ([⟨0, 5, "Austin", 100, 200, "best_match", 7⟩], 200)
    ∧ ([(⟨7, 100, ⟨0, 3600, 3600, [5]⟩⟩ : OMResponse)].length ≠
        (["best_match", "ecmwf_ifs04"] : List String).length) := by
  exact ⟨rfl, by decide⟩

/-- C6 amended: over well-formed responses the parser pairs response `i`
with the `i`-th requested model name for every `i < len(responses)`; when
the responses outnumber the requested models the call fails with an
`IndexError` (not a provider-response error), and when the responses are
fewer than the requested models the surplus models are silently ignored
and parsing succeeds. -/
theorem parse_pairs_response_i_with_model_i (responses : List OMResponse)
    (models : List String) (city : String) (ct : Int)
    (hwf : ∀ r ∈ responses, wfResponse r = true) :
    (models.length < responses.length →
      parse_multi_model_response responses models city ct =
        .error "IndexError: list index out of range")
    ∧ (responses.length ≤ models.length →
      parse_multi_model_response responses models city ct =
        .ok ((List.range responses.length).flatMap (fun k =>
          modelRowsPure (responses.getD k default) (models.getD k "")
            city ct), ct)) := by
  constructor
  · intro hlt
    rw [parse_multi_model_response,
      (parseLoop_spec models city ct responses 0 hwf).2 (by omega) (by omega)]
    rfl
  · intro hle
    rw [parse_multi_model_response,
      (parseLoop_spec models city ct responses 0 hwf).1 (by omega)]
    simp only [Except.map, Nat.zero_add]

/-- Witness for C6's amended claim: two well-formed responses against a
three-model request parse into rows tagged with the first two model
names; three responses against a two-model request raise the index
error. -/
theorem parse_pairs_response_i_with_model_i_witness :
    parse_multi_model_response
        [⟨7, 100, ⟨0, 7200, 3600, [5, 6]⟩⟩, ⟨9, 100, ⟨0, 3600, 3600, [8]⟩⟩]
        ["best_match", "ecmwf_ifs04", "gfs_global"] "Austin" 200 =
      .ok ([⟨0, 5, "Austin", 100, 200, "best_match", 7⟩,
            ⟨3600, 6, "Austin", 100, 200, "best_match", 7⟩,
            ⟨0, 8, "Austin", 100, 200, "ecmwf_ifs04", 9⟩], 200)
    ∧ parse_multi_model_response
        [⟨7, 100, ⟨0, 3600, 3600, [5]⟩⟩, ⟨8, 100, ⟨0, 3600, 3600, [5]⟩⟩,
         ⟨9, 100, ⟨0, 3600, 3600, [5]⟩⟩]
        ["best_match", "ecmwf_ifs04"] "Austin" 200 =
      .error "IndexError: list index out of range" := by
  constructor
  · have h := (parse_pairs_response_i_with_model_i
      [⟨7, 100, ⟨0, 7200, 3600, [5, 6]⟩⟩, ⟨9, 100, ⟨0, 3600, 3600, [8]⟩⟩]
      ["best_match", "ecmwf_ifs04", "gfs_global"] "Austin" 200
      (by intro r hr; fin_cases hr <;> rfl)).2 (by decide)
    rw [h]
    rfl
  · exact (parse_pairs_response_i_with_model_i
      [⟨7, 100, ⟨0, 3600, 3600, [5]⟩⟩, ⟨8, 100, ⟨0, 3600, 3600, [5]⟩⟩,
       ⟨9, 100, ⟨0, 3600, 3600, [5]⟩⟩]
      ["best_match", "ecmwf_ifs04"] "Austin" 200
      (by intro r hr; fin_cases hr <;> rfl)).1 (by decide)

end Galton
